import Mathlib

/-
  Verification of the LServer connection-handling engine against its
  natural-language specification.

  Shallow embedding of the relevant C++ components:
  - Pool<T>            (src/src/pool.hpp)
  - Program            (src/src/program.hpp, vm_instructions_base.hpp)
  - Session            (src/src/session.hpp)
  - LSContextPool      (src/src/io_context_pool.cpp, lscontext.hpp)
  - HttpRequestHeader  (src/src/http_header.hpp)
  - TriggerGuard       (src/src/syncronization_utils.hpp)
  - DynamicString      (src/src/dynamic_string.hpp)

  Machine integers (std::size_t, uint64_t) are modelled as Nat with
  explicit reduction modulo 2^64 where wrap-around matters.
-/

namespace LServer

/-- 2^64: one past the largest value of std::size_t / unsigned long. -/
def W : Nat := 18446744073709551616

/-- UINT64_MAX, the POI_INVALID marker of pool.hpp. -/
def POI_INVALID : Nat := 18446744073709551615

/-! ## Object pool (src/src/pool.hpp)

Pooled items are identified by Nat tokens; `create()` hands out fresh
tokens from `nextId`.  `allItems` is the `all_items_` map (item -> POI)
as an association list, `stack` is the LIFO `pool_` with its head as the
top, `totalCnt` and `inFlightCnt` are the two atomic statistics counters
`stats_.num_items_total_` and `stats_.num_items_in_flight_`, and
`callbackActive` is `callback_active_` (the pending-waiter slot; the
stored callback itself is modelled by reporting which items get delivered
to it). -/

structure PoolState where
  maxSize : Nat
  stack : List Nat
  callbackActive : Bool
  allItems : List (Nat × Nat)
  totalCnt : Nat
  inFlightCnt : Nat
  nextId : Nat
deriving DecidableEq, Repr

/-- Association-list lookup used for the `all_items_` unordered_map. -/
def assocGet : List (Nat × Nat) → Nat → Option Nat
| [], _ => none
| (a, b) :: t, k => if a = k then some b else assocGet t k

/-- `map[k] = v` / `insert_or_assign`: overwrite if present, else add. -/
def assocSet : List (Nat × Nat) → Nat → Nat → List (Nat × Nat)
| [], k, v => [(k, v)]
| (a, b) :: t, k, v => if a = k then (k, v) :: t else (a, b) :: assocSet t k v

/-- `map.emplace(k, v)`: insert only when the key is absent. -/
def assocEmplace (m : List (Nat × Nat)) (k v : Nat) : List (Nat × Nat) :=
  if (assocGet m k).isSome then m else (k, v) :: m

/-- `Pool::create` via the CRTP derived class: allocate a fresh item. -/
def poolCreate (s : PoolState) : Nat × PoolState :=
  (s.nextId, { s with nextId := s.nextId + 1 })

/-- `Pool::subscribe(p)`: `all_items_.emplace(p, POI{})`, then increment
both `num_items_in_flight_` and `num_items_total_`. -/
def poolSubscribe (s : PoolState) (p : Nat) : PoolState :=
  { s with
    allItems := assocEmplace s.allItems p 0
    inFlightCnt := s.inFlightCnt + 1
    totalCnt := s.totalCnt + 1 }

/-- `Pool::insert(p)`: if a waiter is pending, hand `p` to the callback
(and clear the slot) without touching the stack or the counters; else
push on the free stack, mark the item POI_INVALID and decrement the
in-flight counter.  The first component reports the item delivered to
the pending callback, if any. -/
def poolInsert (s : PoolState) (p : Nat) : Option Nat × PoolState :=
  if s.callbackActive then
    (some p, { s with callbackActive := false })
  else
    (none, { s with
      stack := p :: s.stack
      allItems := assocSet s.allItems p POI_INVALID
      inFlightCnt := s.inFlightCnt - 1 })

/-- `Pool::add(p)`: bump `num_items_total_`, then `subscribe` (which bumps
it a second time), then `insert`. -/
def poolAdd (s : PoolState) (p : Nat) : PoolState :=
  (poolInsert (poolSubscribe { s with totalCnt := s.totalCnt + 1 } p) p).2

/-- Fresh pool right after the member initialisers of the constructor. -/
def poolInit (maxSize : Nat) : PoolState :=
  { maxSize := maxSize, stack := [], callbackActive := false,
    allItems := [], totalCnt := 0, inFlightCnt := 0, nextId := 0 }

/-- The eager preallocation loop of the constructor:
`for (i = 0; i < max_size; ++i) add(create());`. -/
def mkPoolLoop : Nat → PoolState → PoolState
| 0, s => s
| n + 1, s =>
    let c := poolCreate s
    mkPoolLoop n (poolAdd c.2 c.1)

/-- `Pool::Pool(max_size, eager)`: throws `InvalidArgs` when
`max_size == 0 && eager`, otherwise optionally preallocates. -/
def mkPool (maxSize : Nat) (eager : Bool) : Except Unit PoolState :=
  if maxSize = 0 ∧ eager = true then .error ()
  else .ok (if eager then mkPoolLoop maxSize (poolInit maxSize) else poolInit maxSize)

/-- `Pool::try_borrow(id)`: pop the LIFO top if non-empty (incrementing
in-flight), otherwise create+subscribe when unbounded or below capacity,
otherwise return nothing; a borrowed item is re-tagged with `id`. -/
def poolTryBorrow (s : PoolState) (id : Nat) : Option Nat × PoolState :=
  match s.stack with
  | p :: rest =>
      let s1 := { s with stack := rest, inFlightCnt := s.inFlightCnt + 1 }
      (some p, { s1 with allItems := assocSet s1.allItems p id })
  | [] =>
      if s.maxSize = 0 ∨ s.inFlightCnt < s.maxSize then
        let c := poolCreate s
        let s2 := poolSubscribe c.2 c.1
        (some c.1, { s2 with allItems := assocSet s2.allItems c.1 id })
      else (none, s)

/-- Result of `Pool::borrow(callback, id)`: returned pointer, the items
passed synchronously to the callback, whether the `std::logic_error`
fault was raised, and the post-state. -/
structure BorrowCbResult where
  result : Option Nat
  callbackCalls : List Nat
  fault : Bool
  state : PoolState
deriving DecidableEq, Repr

/-- `Pool::borrow(callback, id)`: `try_borrow`; on success invoke the
callback with the item and also return it; on failure install the
callback as pending waiter, faulting if one is already installed. -/
def poolBorrowCb (s : PoolState) (id : Nat) : BorrowCbResult :=
  let r := poolTryBorrow s id
  match r.1 with
  | some p => ⟨some p, [p], false, r.2⟩
  | none =>
      if r.2.callbackActive then ⟨none, [], true, r.2⟩
      else ⟨none, [], false, { r.2 with callbackActive := true }⟩

/-- The pool can hand out an item immediately: free stack non-empty, or
unbounded, or in-flight below capacity. -/
def canSupply (s : PoolState) : Prop :=
  s.stack ≠ [] ∨ s.maxSize = 0 ∨ s.inFlightCnt < s.maxSize

instance (s : PoolState) : Decidable (canSupply s) := by
  unfold canSupply; infer_instance

/-! ## Program (src/src/program.hpp, vm_instructions_base.hpp)

`instructions_` is a `std::priority_queue` over `OpCompare`, i.e. a
min-heap on `exec_point_` (OpCompare orders by `left > right`).  We model
it as a list sorted ascending by exec point whose head is `top()`.  The
program-visible effect of `run` is taken from vm_instructions.cpp:
`DownloadOp::run` sets the result code to 200 and the download size to
the operand; LOCK/UNLOCK/SLEEP/LOOP act only on the shared VM or on
time, leaving the Program fields untouched. -/

inductive OpKind
| download
| lockOp
| unlockOp
| sleepOp
| loopOp
deriving DecidableEq, Repr

structure Instr where
  kind : OpKind
  execPoint : Nat
  operand : Nat
deriving DecidableEq, Repr

structure ProgState where
  downloadSize : Nat
  resultCode : Nat
  finished : Bool
  instrs : List Instr
  bytesProcessed : Nat
  cancel : Bool
deriving DecidableEq, Repr

/-- Effect of `BaseOp::run(program, session_id, vm)` on the Program. -/
def runOp (i : Instr) (p : ProgState) : ProgState :=
  match i.kind with
  | .download => { p with resultCode := 200, downloadSize := i.operand }
  | _ => p

/-- The `while (!cancellation_request_ && instructions_.size() > 0)` loop
of `Program::feed`, translated literally: the body runs and pops the top
instruction only when `bytes_processed_cnt_ >= exec_point`, and otherwise
does nothing — the guard is then re-evaluated on an unchanged state.
Execution is metered by `fuel`; `none` means the loop was still running
when the fuel ran out. -/
def feedLoop : Nat → ProgState → Option ProgState
| 0, _ => none
| fuel + 1, p =>
    match p.cancel, p.instrs with
    | false, i :: rest =>
        if i.execPoint ≤ p.bytesProcessed then
          feedLoop fuel { runOp i p with instrs := rest }
        else
          feedLoop fuel p
    | _, _ => some p

/-- `Program::feed(data, len, eof)`: add `len` to the byte counter, run
the instruction loop, then `return (finished_ = eof)`. -/
def progFeed (fuel : Nat) (p : ProgState) (len : Nat) (eof : Bool) :
    Option (Bool × ProgState) :=
  let p1 := { p with bytesProcessed := p.bytesProcessed + len }
  match feedLoop fuel p1 with
  | none => none
  | some q => some (eof, { q with finished := eof })

/-- A program holding one queued DOWNLOAD instruction triggered at byte
offset 10, before any bytes have been fed. -/
def c1Prog : ProgState :=
  { downloadSize := 0, resultCode := 200, finished := false,
    instrs := [⟨.download, 10, 1024⟩], bytesProcessed := 0, cancel := false }

/-! ## Program::try_parse (src/src/program.hpp)

The input buffer is a list of bytes (as Chars) of which the first `len`
are valid.  `std::stoul` is modelled with its glibc semantics: skip
leading whitespace, optional sign, at least one digit, out_of_range
above ULONG_MAX, unsigned wrap-around for a negated value.  The body is
handed to `nlohmann::json::parse` plus the instruction-building loop of
the `Program(std::string_view)` constructor; that parser is abstracted
as a boolean predicate `progOk` on the body bytes (the claims settled
here are independent of its verdict).  The C++ code builds the body view
as `std::string_view{prog_start, prog_len}` with no bound on the buffer;
when that view extends past the `len` valid bytes the code reads out of
bounds, which the model reports as the distinguished status `oobRead`. -/

inductive PStatus
| success
| needMoreData
| failed
| oobRead
deriving DecidableEq, Repr

/-- Whitespace accepted by `std::stoul` (isspace, C locale). -/
def isSpaceC (c : Char) : Bool :=
  c == ' ' || c == '\t' || c == '\n' || c == '\x0b' || c == '\x0c' || c == '\r'

def isDigitC (c : Char) : Bool := '0' ≤ c && c ≤ '9'

/-- `std::stoul` on the header line. `none` models a thrown exception. -/
def stoulTxt (l : List Char) : Option Nat :=
  let l1 := l.dropWhile isSpaceC
  let sgn :=
    match l1 with
    | '-' :: t => (true, t)
    | '+' :: t => (false, t)
    | _ => (false, l1)
  let ds := sgn.2.takeWhile isDigitC
  if ds = [] then none
  else
    let v := ds.foldl (fun a c => a * 10 + (c.toNat - 48)) 0
    if W ≤ v then none
    else some (if sgn.1 then (W - v) % W else v)

/-- `Program::try_parse(program, consume_len, data, len)`, returning the
status and `consume_len`.  Translated branch for branch:
find the first newline (else NEED_MORE_DATA); `stoul` the first line
(exception means FAILED); `if (prog_len > len)` — note: the whole buffer
length, header included — NEED_MORE_DATA; zero length FAILED; then build
the `prog_len`-byte view at `prog_start` (out of bounds when it passes
the end of the valid bytes) and parse it. -/
def programTryParse (progOk : List Char → Bool) (buf : List Char) (len : Nat) :
    PStatus × Nat :=
  let instream := buf.take len
  match instream.findIdx? (fun c => c == '\n') with
  | none => (.needMoreData, 0)
  | some pheaderEnd =>
    match stoulTxt (instream.take pheaderEnd) with
    | none => (.failed, 0)
    | some progLen =>
      if len < progLen then (.needMoreData, 0)
      else if progLen = 0 then (.failed, 0)
      else if len < pheaderEnd + 1 + progLen then (.oobRead, 0)
      else if progOk ((instream.drop (pheaderEnd + 1)).take progLen) then
        (.success, pheaderEnd + 1 + progLen)
      else (.failed, 0)

/-! ## Session::async_receive (src/src/session.hpp) -/

/-- `std::size_t` subtraction `a - b` with unsigned wrap-around. -/
def sizetSub (a b : Nat) : Nat := (a + W - b) % W

def maxTransferSz : Nat := 256 * 1024

/-- `Session::async_receive`: the minimum-transfer size handed to
`asio::transfer_at_least`, or `none` when `BadReceptionState` is thrown.
With no declared expected length the minimum is 1; otherwise it is
`min(expected - received, 256 KiB)` and a zero remaining size is the
programming fault. -/
def asyncReceiveSz (setF : Bool) (expected received : Nat) : Option Nat :=
  if setF then
    let remaining := sizetSub expected received
    if remaining = 0 then none
    else some (min remaining maxTransferSz)
  else some 1

/-! ## Session error reporting (src/src/session.hpp)

`Session::report_error` swallows the distinguished operation-cancelled
code (`error.value() == 2`) and otherwise forwards to the protocol's
`on_error`.  On an errored completion, `receive_event_cb` calls
`report_error` and then `async_close(error)`, and `async_close` calls
`report_error` again for a truthy error before posting `close_once`;
`send_event_cb` additionally clears the outgoing queue first. -/

/-- Number of `on_error` invocations a single `report_error(e)` makes. -/
def reportErrorCalls (e : Nat) : Nat := if e = 2 then 0 else 1

/-- `Session::async_close(e)`: `report_error` when the error is truthy,
then the close sequence is initiated (posted, or run synchronously when
the reactor is stopped).  Returns (on_error invocations, close started). -/
def asyncCloseModel (e : Nat) : Nat × Bool :=
  (if e ≠ 0 then reportErrorCalls e else 0, true)

/-- Error branch of `Session::receive_event_cb`: (total on_error
invocations, close initiated).  The non-error branch dispatches
`on_data` instead and is out of scope of the error-handling claim. -/
def receiveEventCbErr (e : Nat) : Nat × Bool :=
  if e ≠ 0 then
    (reportErrorCalls e + (asyncCloseModel e).1, (asyncCloseModel e).2)
  else (0, false)

/-- Error branch of `Session::send_event_cb`: (total on_error
invocations, close initiated, outgoing queue cleared). -/
def sendEventCbErr (e : Nat) : Nat × Bool × Bool :=
  if e ≠ 0 then
    (reportErrorCalls e + (asyncCloseModel e).1, (asyncCloseModel e).2, true)
  else (0, false, false)

/-! ## Reactor pool (src/src/io_context_pool.cpp, lscontext.hpp) -/

structure LSCtx where
  active : Bool
  holdCnt : Nat
deriving DecidableEq, Repr

def EBUSY : Nat := 16

/-- `LSContext::removable()`: EBUSY while administrative holds exist. -/
def ctxRemovable (c : LSCtx) : Nat := if 0 < c.holdCnt then EBUSY else 0

/-- `LSContext::stop(force)`: return `removable()` when positive and not
forced; otherwise clear the active flag (work-guard release, thread join
and io_context rebuild have no observable effect on this state). -/
def ctxStop (c : LSCtx) (force : Bool) : Nat × LSCtx :=
  let rc := ctxRemovable c
  if 0 < rc ∧ force = false then (rc, c)
  else (0, { c with active := false })

def activeCount (l : List LSCtx) : Nat := (l.filter (fun c => c.active)).length

/-- `LSContextPool::deactivate_context(index)`: the three sanity checks
raise `std::logic_error` (modelled as `.error`), then the result of
`stop(false)` is returned. -/
def deactivateContext (l : List LSCtx) (i : Nat) : Except Unit (Nat × List LSCtx) :=
  if h : l.length ≤ i then .error ()
  else
    let c := l.get ⟨i, by omega⟩
    if c.active = false then .error ()
    else if activeCount l < 2 then .error ()
    else
      let r := ctxStop c false
      .ok (r.1, l.set i r.2)

/-- Did a call return normally (true) or raise the modelled
`std::logic_error` (false)? -/
def exceptOk {ε α : Type} : Except ε α → Bool
| .ok _ => true
| .error _ => false

/-! ## HttpRequestHeader Connection handling (src/src/http_header.hpp) -/

/-- C `tolower` restricted to ASCII, as applied to header bytes. -/
def asciiLower (c : Char) : Char :=
  if 65 ≤ c.toNat ∧ c.toNat ≤ 90 then Char.ofNat (c.toNat + 32) else c

/-- `0 == strncasecmp(buf, lit, len)` where `buf` holds exactly the
`len` value bytes and `lit` is a NUL-terminated literal: compare
case-insensitively until the value's length is exhausted (equal), the
literal's NUL is reached (equal only on a NUL value byte), or a byte
differs. -/
def strncaseEqLit : List Char → List Char → Bool
| [], _ => true
| v :: _, [] => v == Char.ofNat 0
| v :: vs, l :: ls => (asciiLower v == asciiLower l) && strncaseEqLit vs ls

/-- The value bytes are a case-insensitive prefix of the literal. -/
def caselessPrefixOf (v lit : List Char) : Bool :=
  (v.map asciiLower).isPrefixOf (lit.map asciiLower)

inductive HdrState
| kNone
| kConnection
deriving DecidableEq, Repr

structure ReqHdr where
  keepAlive : Bool
  hstate : HdrState
deriving DecidableEq, Repr

/-- `HttpRequestHeader::set_field`: look the field name up in the
case-insensitive `header_names` map (which holds only "connection"). -/
def setField (s : ReqHdr) (f : List Char) : ReqHdr :=
  if f.map asciiLower = ("connection".toList) then { s with hstate := .kConnection }
  else { s with hstate := .kNone }

/-- `HttpRequestHeader::set_value`: in the kConnection state, a value
matching `strncasecmp(buf, "close", len)` clears keep-alive and one
matching `strncasecmp(buf, "keep-alive", len)` sets it; the state
returns to kNone. -/
def setValue (s : ReqHdr) (v : List Char) : ReqHdr :=
  match s.hstate with
  | .kNone => s
  | .kConnection =>
      let ka :=
        if strncaseEqLit v ("close".toList) then false
        else if strncaseEqLit v ("keep-alive".toList) then true
        else s.keepAlive
      { keepAlive := ka, hstate := .kNone }

inductive HdrEvent
| fieldEv (f : List Char)
| valueEv (v : List Char)

/-- A parse run: the sequence of header_field_cb / header_value_cb
callbacks the http_parser delivers for one request header. -/
def processHdrEvents : ReqHdr → List HdrEvent → ReqHdr
| s, [] => s
| s, .fieldEv f :: t => processHdrEvents (setField s f) t
| s, .valueEv v :: t => processHdrEvents (setValue s v) t

/-- Header-callback sequence of a request carrying
`Connection: keep-alive` and then `Connection: clo`. -/
def c7Events : List HdrEvent :=
  [ .fieldEv ("Connection".toList), .valueEv ("keep-alive".toList),
    .fieldEv ("Connection".toList), .valueEv ("clo".toList) ]

def hdrInit : ReqHdr := { keepAlive := false, hstate := .kNone }

/-! ## TriggerGuard (src/src/syncronization_utils.hpp)

All TriggerGuard operations run under the single mutex `mtx_`, so a run
of the primitive is a sequence of atomic critical sections on the state
(triggered flag, reference count).  `trigger()`'s condition-variable
wait is modelled as a step outcome: `fault` for the already-triggered
exception, `blocked` while the wait predicate `ref_cnt_ == 0` is false,
`done` once it holds and the flag is set. -/

structure TG where
  triggered : Bool
  refCnt : Nat
deriving DecidableEq, Repr

inductive TGOutcome
| fault
| blocked
| done (s : TG)
deriving DecidableEq, Repr

/-- One evaluation of `TriggerGuard::trigger()` under the mutex. -/
def tgTrigger (s : TG) : TGOutcome :=
  if s.triggered then .fault
  else if s.refCnt = 0 then .done { s with triggered := true }
  else .blocked

/-- `TriggerGuard::acquire_scoped_guard()`: take a reference only while
not triggered; the handle's truthiness is the negated flag. -/
def tgAcquire (s : TG) : TG × Bool :=
  if s.triggered then (s, false)
  else ({ s with refCnt := s.refCnt + 1 }, true)

/-- `TriggerGuard::release_scoped_guard()` (ScopedGuard destructor). -/
def tgRelease (s : TG) : TG := { s with refCnt := s.refCnt - 1 }

/-! ## DynamicString::printf (src/src/dynamic_string.hpp)

`snprintf` into the free space returns the full formatted length `n`
(independent of the buffer handed to it) and the loop retries after
`resize` while `n >= capacity - size`.  The retry loop is metered by
fuel; `none` means it was still running when the fuel ran out.  State is
(capacity, size); a successful write advances size by `n`. -/

def dsPrintfLoop : Nat → Nat → Nat → Nat → Option (Nat × Nat)
| 0, _, _, _ => none
| fuel + 1, cap, sz, n =>
    if cap - sz ≤ n then
      let ns := n + sz
      let ns2 := if ns < cap * 2 then (if cap ≤ 512 then cap * 2 else ns) else ns
      dsPrintfLoop fuel ns2 sz n
    else some (cap, sz + n)

end LServer

namespace LServer

/-! ## Theorems -/

/-- Helper: a pending non-due top instruction leaves the feed-loop state
unchanged, so the loop consumes any amount of fuel without finishing. -/
theorem feedLoop_stuck (i : Instr) (rest : List Instr) (p : ProgState)
    (hc : p.cancel = false) (hi : p.instrs = i :: rest)
    (hgt : p.bytesProcessed < i.execPoint) :
    ∀ fuel, feedLoop fuel p = none := by
  intro fuel
  induction fuel with
  | zero => rfl
  | succ n ih =>
      rw [feedLoop, hc, hi]
      simp only [Nat.not_le.mpr hgt, if_false]
      exact ih

/-- C1: `Program::feed` is claimed to terminate, popping exactly the due
instructions and leaving later ones queued.  The code's while loop has no
exit when the heap's top is not yet due — `feed` then never returns.  At
the concrete failing input (one DOWNLOAD queued at exec point 10, a
5-byte chunk fed with eof), the loop runs forever: no fuel bound ever
suffices. -/
theorem program_feed_nonterminating_on_pending_instr :
    ∀ fuel, progFeed fuel c1Prog 5 true = none := by
  intro fuel
  have h := feedLoop_stuck ⟨.download, 10, 1024⟩ []
      { c1Prog with bytesProcessed := c1Prog.bytesProcessed + 5 }
      rfl rfl (by decide) fuel
  simp only [progFeed, h]

/-- C2: with the buffer holding exactly "2\n" (len 2: a declared 2-byte
body, none of it received), `try_parse` is claimed to return
NEED_MORE_DATA, since digits(2) + 1 + 2 = 4 > 2 bytes are available.
Instead the code's availability check compares the body length against
the whole buffer length (`prog_len > len`, header line included), passes,
and builds a 2-byte `std::string_view` starting past the end of the
buffer — an out-of-bounds read, for every body parser verdict. -/
theorem program_try_parse_oob_read_on_short_body :
    ∀ progOk, programTryParse progOk ("2\n".toList) 2 = (.oobRead, 0) :=
  fun _ => rfl

/-- The pool state after `Pool(max_size = 1, eager = true)`. -/
def c3State : PoolState :=
  { maxSize := 1, stack := [0], callbackActive := false,
    allItems := [(0, POI_INVALID)], totalCnt := 2, inFlightCnt := 0, nextId := 1 }

/-- C3: the claim asserts total ≤ max_size whenever max_size > 0.  Eager
construction calls `add` on each preallocated item, and `add` increments
`num_items_total_` once itself and once more inside `subscribe`, so
`Pool(1, eager)` ends with total = 2 > max_size = 1. -/
theorem pool_eager_total_exceeds_max_size :
    mkPool 1 true = .ok c3State ∧ c3State.maxSize < c3State.totalCnt :=
  ⟨rfl, by decide⟩

/-- Helper: the size_t subtraction in `async_receive` agrees with Nat
subtraction while the received counter has not passed the expected one. -/
theorem sizetSub_eq_sub (a b : Nat) (ha : a < W) (hb : b ≤ a) :
    sizetSub a b = a - b := by
  simp only [sizetSub, W] at *
  omega

/-- C4: `Session::async_receive` schedules a read with minimum transfer
size 1 when no expected data length has been declared, and
`min(expected - received, 256 KiB)` when one has; it throws
`BadReceptionState` exactly when a length is declared and the remaining
size is zero. -/
theorem session_receive_min_transfer (setF : Bool) (expected received : Nat)
    (hexp : expected < W) (hrec : received ≤ expected) :
    (asyncReceiveSz setF expected received = none ↔
        setF = true ∧ expected - received = 0)
    ∧ (setF = false → asyncReceiveSz setF expected received = some 1)
    ∧ (setF = true → expected - received ≠ 0 →
        asyncReceiveSz setF expected received = some (min (expected - received) (256 * 1024))) := by
  have hsub := sizetSub_eq_sub expected received hexp hrec
  cases setF with
  | false => simp [asyncReceiveSz]
  | true =>
      refine ⟨?_, ?_, ?_⟩
      · by_cases h0 : expected - received = 0 <;>
          simp [asyncReceiveSz, hsub, h0]
      · intro h
        exact absurd h (by decide)
      · intro _ h0
        simp [asyncReceiveSz, hsub, h0, maxTransferSz]

/-- C4 witness: at expected = received = 5 with a declared length, the
fault branch is taken. -/
theorem session_receive_min_transfer_witness :
    asyncReceiveSz true 5 5 = none :=
  (session_receive_min_transfer true 5 5 (by decide) (by decide)).1.mpr ⟨rfl, rfl⟩

/-- C5: on an errored receive or send completion, `on_error` is invoked
if and only if the error value differs from 2 (the operation-cancelled
code); in either case the close sequence is initiated. -/
theorem session_error_reporting (e : Nat) (he : e ≠ 0) :
    (0 < (receiveEventCbErr e).1 ↔ e ≠ 2)
    ∧ (receiveEventCbErr e).2 = true
    ∧ (0 < (sendEventCbErr e).1 ↔ e ≠ 2)
    ∧ (sendEventCbErr e).2.1 = true := by
  by_cases h2 : e = 2 <;>
    simp [receiveEventCbErr, sendEventCbErr, asyncCloseModel, reportErrorCalls, he, h2]

/-- C5 witness: the cancelled code 2 still initiates the close sequence
(and, by the theorem's first component, raises no `on_error`). -/
theorem session_error_reporting_witness :
    (receiveEventCbErr 2).2 = true :=
  (session_error_reporting 2 (by decide)).2.1

/-- Helper: writing back the element already stored at an index leaves
the list unchanged. -/
theorem list_set_get_self {α : Type} :
    ∀ (l : List α) (i : Nat) (h : i < l.length), l.set i (l.get ⟨i, h⟩) = l
| [], i, h => by simp at h
| _ :: _, 0, _ => rfl
| a :: t, i + 1, h => by
    simp only [List.set, List.get]
    rw [list_set_get_self t i (by simpa using h)]

/-- C6: `deactivate_context(i)` raises a logic fault exactly when the
index is out of range, the target reactor is inactive, or it is the only
active reactor; otherwise it returns `stop(false)`: EBUSY with the pool
unchanged when the hold count is positive, else 0 with the reactor
deactivated. -/
theorem reactor_pool_deactivate_spec (l : List LSCtx) (i : Nat) :
    (exceptOk (deactivateContext l i) = false ↔
        l.length ≤ i ∨ ∃ h : i < l.length,
          ((l.get ⟨i, h⟩).active = false ∨ activeCount l < 2))
    ∧ (∀ h : i < l.length, (l.get ⟨i, h⟩).active = true → 2 ≤ activeCount l →
        (0 < (l.get ⟨i, h⟩).holdCnt →
            deactivateContext l i = .ok (EBUSY, l))
        ∧ ((l.get ⟨i, h⟩).holdCnt = 0 →
            deactivateContext l i = .ok (0, l.set i { l.get ⟨i, h⟩ with active := false }))) := by
  by_cases hle : l.length ≤ i
  · refine ⟨?_, ?_⟩
    · rw [deactivateContext, dif_pos hle]
      exact ⟨fun _ => Or.inl hle, fun _ => rfl⟩
    · intro h
      omega
  · have hlt : i < l.length := Nat.lt_of_not_le hle
    have hbody : deactivateContext l i =
        (if (l.get ⟨i, hlt⟩).active = false then .error ()
         else if activeCount l < 2 then .error ()
         else .ok ((ctxStop (l.get ⟨i, hlt⟩) false).1,
                   l.set i (ctxStop (l.get ⟨i, hlt⟩) false).2)) := by
      rw [deactivateContext, dif_neg hle]
    constructor
    · by_cases hact : (l.get ⟨i, hlt⟩).active = false
      · rw [hbody, if_pos hact]
        exact ⟨fun _ => Or.inr ⟨hlt, Or.inl hact⟩, fun _ => rfl⟩
      · by_cases hcnt : activeCount l < 2
        · rw [hbody, if_neg hact, if_pos hcnt]
          exact ⟨fun _ => Or.inr ⟨hlt, Or.inr hcnt⟩, fun _ => rfl⟩
        · rw [hbody, if_neg hact, if_neg hcnt]
          constructor
          · intro hfalse
            exact absurd hfalse (by simp [exceptOk])
          · rintro (h | ⟨h2, hor⟩)
            · omega
            · rcases hor with hor | hor
              · exact absurd hor hact
              · exact absurd hor hcnt
    · intro h hact hcnt
      have hact1 : (l.get ⟨i, hlt⟩).active = true := hact
      have hact2 : ¬ (l.get ⟨i, hlt⟩).active = false := by
        rw [hact1]; simp
      have hc2 : ¬ activeCount l < 2 := by omega
      rw [hbody, if_neg hact2, if_neg hc2]
      constructor
      · intro hhold
        have hh : 0 < (l.get ⟨i, hlt⟩).holdCnt := hhold
        have hstop : ctxStop (l.get ⟨i, hlt⟩) false = (EBUSY, l.get ⟨i, hlt⟩) := by
          cases hv : (l.get ⟨i, hlt⟩).holdCnt with
          | zero => omega
          | succ k =>
              simp only [List.get_eq_getElem] at hv
              simp [ctxStop, ctxRemovable, hv, EBUSY]
        rw [hstop]
        show Except.ok (EBUSY, l.set i (l.get ⟨i, hlt⟩)) = Except.ok (EBUSY, l)
        rw [list_set_get_self l i hlt]
      · intro hhold
        have hh : (l.get ⟨i, hlt⟩).holdCnt = 0 := hhold
        have hstop : ctxStop (l.get ⟨i, hlt⟩) false =
            (0, { l.get ⟨i, hlt⟩ with active := false }) := by
          simp only [List.get_eq_getElem] at hh
          simp [ctxStop, ctxRemovable, hh]
        rw [hstop]

/-- A reactor pool with two active reactors, the second holding an
administrative hold. -/
def c6Pool : List LSCtx := [⟨true, 0⟩, ⟨true, 3⟩]

/-- C6 witness: deactivating the held reactor returns EBUSY and leaves
the pool unchanged. -/
theorem reactor_pool_deactivate_spec_witness :
    deactivateContext c6Pool 1 = .ok (EBUSY, c6Pool) :=
  ((reactor_pool_deactivate_spec c6Pool 1).2 (by decide) rfl (by decide)).1 (by decide)

/-- C7 counterexample: after `Connection: keep-alive` sets the flag, a
`Connection: clo` header — whose value does not equal the token "close"
case-insensitively — still clears keep-alive, because the code compares
with `strncasecmp(buf, "close", len)` and `clo` is a case-insensitive
prefix of `close`.  The claim requires the flag to be unchanged (true). -/
theorem http_connection_close_counterexample :
    (processHdrEvents hdrInit (c7Events.take 2)).keepAlive = true
    ∧ (processHdrEvents hdrInit c7Events).keepAlive = false
    ∧ ("clo".toList).map asciiLower ≠ ("close".toList).map asciiLower := by
  decide

/-- Helper: for values without NUL bytes, the code's
`strncasecmp(buf, lit, len) == 0` test is exactly the case-insensitive
prefix test. -/
theorem strncase_eq_caseless :
    ∀ (v lit : List Char), Char.ofNat 0 ∉ v →
      strncaseEqLit v lit = caselessPrefixOf v lit
| [], lit, _ => by
    simp [strncaseEqLit, caselessPrefixOf, List.isPrefixOf]
| v :: vs, [], h => by
    have hv : v ≠ Char.ofNat 0 := by
      intro hveq
      exact h (hveq ▸ List.mem_cons_self v vs)
    simp [strncaseEqLit, caselessPrefixOf, List.isPrefixOf, hv]
| v :: vs, l :: ls, h => by
    have hvs : Char.ofNat 0 ∉ vs := fun hm => h (List.mem_cons_of_mem v hm)
    simp only [strncaseEqLit, caselessPrefixOf, List.map, List.isPrefixOf,
      strncase_eq_caseless vs ls hvs]

/-- C7 amended: processing the value of a Connection header clears
keep-alive exactly when the value is a case-insensitive prefix of
"close" (the empty value included), sets it exactly when the value is a
case-insensitive prefix of "keep-alive" but not of "close", and leaves
it unchanged otherwise; values seen outside the Connection state and
field names themselves never change the flag (values are NUL-free header
bytes). -/
theorem http_connection_keep_alive_amended (s : ReqHdr) (v f : List Char)
    (hnul : Char.ofNat 0 ∉ v) :
    (s.hstate = .kConnection →
        (setValue s v).keepAlive =
          (if caselessPrefixOf v ("close".toList) then false
           else if caselessPrefixOf v ("keep-alive".toList) then true
           else s.keepAlive))
    ∧ (s.hstate = .kNone → setValue s v = s)
    ∧ (setField s f).keepAlive = s.keepAlive := by
  refine ⟨?_, ?_, ?_⟩
  · intro hs
    simp [setValue, hs, strncase_eq_caseless v _ hnul]
  · intro hs
    simp [setValue, hs]
  · simp only [setField]
    split <;> rfl

/-- C7 amended witness: the value "clo" in the Connection state clears
the flag via the prefix rule. -/
theorem http_connection_keep_alive_amended_witness :
    (setValue ⟨true, .kConnection⟩ ("clo".toList)).keepAlive =
      (if caselessPrefixOf ("clo".toList) ("close".toList) then false
       else if caselessPrefixOf ("clo".toList) ("keep-alive".toList) then true
       else true) :=
  (http_connection_keep_alive_amended ⟨true, .kConnection⟩ ("clo".toList) [] (by decide)).1 rfl

/-- C8: `trigger()` on an already-triggered guard faults; it completes
only from a state whose reference count is zero (i.e. after every
previously acquired scoped guard has been released), setting the flag;
while references are held it stays blocked in the wait; and an acquire
running after the flag is set takes no reference and yields a false
handle, while one running before increments the count. -/
theorem trigger_guard_spec (s s2 : TG) :
    (s.triggered = true → tgTrigger s = .fault ∧ tgAcquire s = (s, false))
    ∧ (tgTrigger s = .done s2 →
        s.refCnt = 0 ∧ s.triggered = false ∧ s2 = { s with triggered := true })
    ∧ (s.triggered = false → 0 < s.refCnt → tgTrigger s = .blocked)
    ∧ (s.triggered = false → tgAcquire s = ({ s with refCnt := s.refCnt + 1 }, true)) := by
  refine ⟨?_, ?_, ?_, ?_⟩
  · intro ht
    simp [tgTrigger, tgAcquire, ht]
  · intro hdone
    by_cases ht : s.triggered
    · simp [tgTrigger, ht] at hdone
    · by_cases hr : s.refCnt = 0
      · simp [tgTrigger, ht, hr] at hdone
        refine ⟨hr, by simpa using ht, ?_⟩
        rw [hr]
        exact hdone.symm
      · simp [tgTrigger, ht, hr] at hdone
  · intro ht hr
    simp [tgTrigger, ht, Nat.pos_iff_ne_zero.mp hr]
  · intro ht
    simp [tgAcquire, ht]

/-- C8 witness: from the idle state (not triggered, zero references)
`trigger()` completes, and the theorem recovers that state's facts. -/
theorem trigger_guard_spec_witness :
    TG.refCnt ⟨false, 0⟩ = 0 ∧ TG.triggered ⟨false, 0⟩ = false
    ∧ (⟨true, 0⟩ : TG) = { (⟨false, 0⟩ : TG) with triggered := true } :=
  (trigger_guard_spec ⟨false, 0⟩ ⟨true, 0⟩).2.1 rfl

/-- Helper: once capacity equals the 600-byte requirement (at size 0),
each retry recomputes the same capacity — `new_sz = nchars + size` is
never strictly larger than needed-plus-NUL and the doubling branch is
off above 512 — so the loop never exits. -/
theorem dsPrintfLoop_stuck_600 : ∀ fuel, dsPrintfLoop fuel 600 0 600 = none := by
  intro fuel
  induction fuel with
  | zero => rfl
  | succ n ih =>
      rw [dsPrintfLoop]
      norm_num
      exact ih

/-- C9: `DynamicString::printf` is claimed to terminate with `size`
grown by the produced byte count.  The resize loop sets the new capacity
to `nchars + size()` — one byte short of what `snprintf` needs for its
NUL — and skips the doubling branch once the capacity exceeds 512, so a
printf producing 600 bytes into a 16-byte string retries forever: no
fuel bound ever suffices. -/
theorem dynamic_string_printf_nonterminating :
    ∀ fuel, dsPrintfLoop fuel 16 0 600 = none := by
  intro fuel
  cases fuel with
  | zero => rfl
  | succ n =>
      rw [dsPrintfLoop]
      norm_num
      exact dsPrintfLoop_stuck_600 n

/-- C10: `borrow(callback, id)`: whenever the pool can supply an item
(free stack non-empty, unbounded, or in-flight below capacity) the
callback is invoked synchronously with exactly the borrowed item, the
same item is returned, and the pending-waiter slot is untouched; when it
cannot, a pending waiter faults the call, otherwise the callback is
installed and nothing returned; a `put_back` arriving at a pool with a
pending waiter delivers its argument to the waiter without decrementing
the in-flight count. -/
theorem pool_borrow_callback_spec (s : PoolState) (id : Nat) :
    (canSupply s →
        (poolTryBorrow s id).1.isSome = true
        ∧ poolBorrowCb s id =
            ⟨(poolTryBorrow s id).1, ((poolTryBorrow s id).1).toList, false,
              (poolTryBorrow s id).2⟩
        ∧ ((poolTryBorrow s id).2).callbackActive = s.callbackActive)
    ∧ (¬ canSupply s →
        (s.callbackActive = true → poolBorrowCb s id = ⟨none, [], true, s⟩)
        ∧ (s.callbackActive = false →
            poolBorrowCb s id = ⟨none, [], false, { s with callbackActive := true }⟩))
    ∧ (∀ (t : PoolState) (q : Nat), t.callbackActive = true →
        poolInsert t q = (some q, { t with callbackActive := false })) := by
  refine ⟨?_, ?_, ?_⟩
  · intro hcs
    match hst : s.stack with
    | p :: rest =>
        simp [poolTryBorrow, poolBorrowCb, hst]
    | [] =>
        have hcond : s.maxSize = 0 ∨ s.inFlightCnt < s.maxSize := by
          rcases hcs with h | h | h
          · exact absurd hst h
          · exact Or.inl h
          · exact Or.inr h
        simp [poolTryBorrow, poolBorrowCb, poolCreate, poolSubscribe, hst, hcond]
  · intro hcs
    unfold canSupply at hcs
    push_neg at hcs
    obtain ⟨h1, h2, h3⟩ := hcs
    have hcond : ¬ (s.maxSize = 0 ∨ s.inFlightCnt < s.maxSize) := by
      intro h
      rcases h with h | h
      · exact h2 h
      · omega
    constructor
    · intro hcb
      simp [poolTryBorrow, poolBorrowCb, h1, hcond, hcb]
    · intro hcb
      simp [poolTryBorrow, poolBorrowCb, h1, hcond, hcb]
  · intro t q ht
    simp [poolInsert, ht]

/-- A bounded pool (max_size 1) whose single item is in flight. -/
def c10Pool : PoolState :=
  { maxSize := 1, stack := [], callbackActive := false,
    allItems := [(0, 5)], totalCnt := 1, inFlightCnt := 1, nextId := 1 }

/-- C10 witness: borrowing with a callback from the exhausted pool
installs the waiter and returns nothing. -/
theorem pool_borrow_callback_spec_witness :
    poolBorrowCb c10Pool 7 = ⟨none, [], false, { c10Pool with callbackActive := true }⟩ :=
  ((pool_borrow_callback_spec c10Pool 7).2.1 (by decide)).2 rfl

end LServer
